import Mathlib

/-!
Verification of the tab-group ownership registry, file lock, extension
discovery/wake bridge and daemon supervisor of `ultimate-playwright-mcp`.

The registry (`src/browser/tab-groups.ts`) persists a JSON document
`{groups, tabs, extensionId?}` to a single file; every mutation runs as a
locked read-modify-write (`withRegistry`).  JavaScript objects are modelled
as association lists preserving insertion order (JS string-keyed objects
iterate in insertion order); `JSON.stringify`/`JSON.parse` are modelled as
the identity on stored documents (the serializer is deterministic and
injective, so equality of stored documents coincides with byte equality of
the file).  `Date.now()` and `randomBytes` are passed in as explicit
parameters.
-/

set_option maxRecDepth 8192

namespace TabGroups

/-- JS object lookup `m[k]` on a string-keyed object. -/
def rget {α : Type} (m : List (String × α)) (k : String) : Option α :=
  (m.find? (fun p => p.1 == k)).map (·.2)

/-- JS assignment `m[k] = v`: updates in place if the key exists,
otherwise appends (JS insertion-order semantics). -/
def rset {α : Type} (m : List (String × α)) (k : String) (v : α) : List (String × α) :=
  if m.any (fun p => p.1 == k) then
    m.map (fun p => if p.1 == k then (k, v) else p)
  else
    m ++ [(k, v)]

/-- JS `delete m[k]`. -/
def rdel {α : Type} (m : List (String × α)) (k : String) : List (String × α) :=
  m.filter (fun p => !(p.1 == k))

/-- `TabGroup` record from `tab-groups.ts`. -/
structure TabGroup where
  groupId : String
  name : String
  color : Option String
  createdAt : Nat
  chromeGroupId : Option Int
  deriving Repr, DecidableEq

/-- `TabEntry` record from `tab-groups.ts`. -/
structure TabEntry where
  groupId : String
  addedAt : Nat
  deriving Repr, DecidableEq

/-- `TabGroupRegistry`: the in-memory registry value. -/
structure TabGroupRegistry where
  groups : List (String × TabGroup)
  tabs : List (String × TabEntry)
  extensionId : Option String
  deriving Repr, DecidableEq

/-- State of the registry file on disk: missing, unparseable, or holding a
serialized registry document. -/
inductive RegFile
  | missing
  | corrupt
  | stored (doc : TabGroupRegistry)
  deriving Repr, DecidableEq

/-- The 8 permitted colors (`VALID_COLORS`). -/
def VALID_COLORS : List String :=
  ["grey", "blue", "red", "yellow", "green", "pink", "purple", "cyan"]

/-- `isValidColor` from `tab-groups.ts`. -/
def isValidColor (c : String) : Bool :=
  VALID_COLORS.contains c

/-- `readRegistry()`: a missing or corrupt file reads as an empty registry.
On a successful parse the source constructs `{groups: parsed.groups ?? {},
tabs: parsed.tabs ?? {}}` — the object built has **no** `extensionId`
property, so the field reads back as `none` even when the stored document
carries one. -/
def readRegistry (f : RegFile) : TabGroupRegistry :=
  match f with
  | .missing => { groups := [], tabs := [], extensionId := none }
  | .corrupt => { groups := [], tabs := [], extensionId := none }
  | .stored doc => { groups := doc.groups, tabs := doc.tabs, extensionId := none }

/-- `writeRegistry(reg)`: full-file overwrite with the serialized registry. -/
def writeRegistry (reg : TabGroupRegistry) : RegFile :=
  .stored reg

/-- `withRegistry(fn)`: read, run `fn`, persist.  When `fn` throws, the
exception propagates before `writeRegistry` is reached, so the file is
left untouched; the lock is released on every path. -/
def withRegistry {α : Type} (fn : TabGroupRegistry → Except String (α × TabGroupRegistry))
    (f : RegFile) : Except String α × RegFile :=
  let reg := readRegistry f
  match fn reg with
  | .error e => (.error e, f)
  | .ok (a, reg') => (.ok a, writeRegistry reg')

/-- `generateGroupId()`: `"g_" + randomBytes(8).toString("hex")`, with the
random hex token passed in explicitly. -/
def generateGroupId (randHex : String) : String :=
  "g_" ++ randHex

/-- `createTabGroup({name, color?})` with explicit randomness and clock. -/
def createTabGroup (randHex : String) (now : Nat) (name : String) (color : Option String)
    (f : RegFile) : TabGroup × RegFile :=
  let c := match color with
    | some c0 => if isValidColor c0 then some c0 else none
    | none => none
  let group : TabGroup :=
    { groupId := generateGroupId randHex
      name := if name.trim = "" then "unnamed" else name.trim
      color := c
      createdAt := now
      chromeGroupId := none }
  let r := withRegistry (fun reg =>
    .ok ((), { reg with groups := rset reg.groups group.groupId group })) f
  (group, r.2)

/-- `listTabGroups()`: read-only; each group is paired with its tab count. -/
def listTabGroups (f : RegFile) : List (TabGroup × Nat) × RegFile :=
  let reg := readRegistry f
  (reg.groups.map (fun p =>
    (p.2, (reg.tabs.filter (fun t => t.2.groupId == p.2.groupId)).length)), f)

/-- `deleteTabGroup(groupId)`: NotFound when absent; otherwise removes the
group and every tab entry referencing it, returning those targetIds. -/
def deleteTabGroup (groupId : String) (f : RegFile) :
    Except String (List String) × RegFile :=
  withRegistry (fun reg =>
    if (rget reg.groups groupId).isNone then
      .error ("Tab group not found: " ++ groupId)
    else
      .ok ((reg.tabs.filter (fun p => p.2.groupId == groupId)).map (·.1),
        { reg with
          groups := rdel reg.groups groupId
          tabs := reg.tabs.filter (fun p => !(p.2.groupId == groupId)) })) f

/-- `addTabToGroup(targetId, groupId)`: NotFound when the group is absent;
otherwise inserts/overwrites the tab entry. -/
def addTabToGroup (targetId groupId : String) (now : Nat) (f : RegFile) :
    Except String Unit × RegFile :=
  withRegistry (fun reg =>
    if (rget reg.groups groupId).isNone then
      .error ("Tab group not found: " ++ groupId)
    else
      .ok ((), { reg with tabs := rset reg.tabs targetId { groupId := groupId, addedAt := now } })) f

/-- `removeTabFromGroup(targetId)`: unconditional delete. -/
def removeTabFromGroup (targetId : String) (f : RegFile) : Except String Unit × RegFile :=
  withRegistry (fun reg => .ok ((), { reg with tabs := rdel reg.tabs targetId })) f

/-- `getGroupForTab(targetId)`: read-only lookup. -/
def getGroupForTab (targetId : String) (f : RegFile) : Option String × RegFile :=
  ((rget (readRegistry f).tabs targetId).map (·.groupId), f)

/-- `getTabsInGroup(groupId)`: read-only filter. -/
def getTabsInGroup (groupId : String) (f : RegFile) : List String × RegFile :=
  (((readRegistry f).tabs.filter (fun p => p.2.groupId == groupId)).map (·.1), f)

/-- `pruneStaleTargets(liveTargetIds)`: deletes every tab entry whose
targetId is not in the live set; returns the number removed. -/
def pruneStaleTargets (live : List String) (f : RegFile) : Except String Nat × RegFile :=
  withRegistry (fun reg =>
    .ok ((reg.tabs.filter (fun p => !(live.contains p.1))).length,
      { reg with tabs := reg.tabs.filter (fun p => live.contains p.1) })) f

/-- `getTabGroup(groupId)`: read-only lookup. -/
def getTabGroup (groupId : String) (f : RegFile) : Option TabGroup × RegFile :=
  (rget (readRegistry f).groups groupId, f)

/-- `getExtensionId()`: read-only lookup of the cached extension id. -/
def getExtensionId (f : RegFile) : Option String × RegFile :=
  ((readRegistry f).extensionId, f)

/-- `setExtensionId(extensionId)`: stores the id through a read-modify-write. -/
def setExtensionId (extensionId : String) (f : RegFile) : Except String Unit × RegFile :=
  withRegistry (fun reg => .ok ((), { reg with extensionId := some extensionId })) f

/-- `setChromeGroupId(groupId, chromeGroupId)`: assigns the Chrome visual
group id whenever the group exists (a silent no-op otherwise). -/
def setChromeGroupId (groupId : String) (chromeGroupId : Int) (f : RegFile) :
    Except String Unit × RegFile :=
  withRegistry (fun reg =>
    let groups' := match rget reg.groups groupId with
      | some g => rset reg.groups groupId { g with chromeGroupId := some chromeGroupId }
      | none => reg.groups
    .ok ((), { reg with groups := groups' })) f

end TabGroups

namespace FileLock

/-!
Interleaving model of `acquireLock` / `releaseLock` from `tab-groups.ts`.
The sentinel file either does not exist (`none`) or records the owner's
pid.  `writeFileSync(..., {flag: "wx"})` is an atomic create-if-absent, so
a create step can only fire when no sentinel exists.  The stale-owner
recovery path is **not** atomic in the source: a waiter first
`readFileSync`s the sentinel and probes the recorded pid with a signal-0
check (`isProcessAlive`); only on a later syscall does it `unlinkSync` the
sentinel, with no re-validation — by then the sentinel's content may have
changed, so the unlink deletes whatever sentinel currently exists (the
source's catch comment "lock file disappeared between our check and read"
acknowledges the window but handles only the vanished-file case).  The
model therefore splits recovery into `readStale` (the dead-owner
observation) and `unlinkStale` (the unconditional delete).  Only after
`maxWaitMs` (3000 ms) of waiting does the force-break branch (`unlinkSync`
regardless of owner liveness) become reachable; the `timeoutExpired` flag
gates it, so executions within the bounded wait are exactly those with
`timeoutExpired = false`.  Only live processes take steps. -/

/-- Control location of one process inside `acquireLock`/`releaseLock`:
`observedDead` is the point between the dead-owner liveness check and the
subsequent `unlinkSync`. -/
inductive PStatus
  | idle
  | trying
  | observedDead
  | holding
  deriving Repr, DecidableEq

/-- Global state: sentinel-file content and each process's control state. -/
structure LockState where
  lock : Option Nat
  status : Nat → PStatus

/-- Pointwise update of the per-process control map. -/
def updStatus (st : Nat → PStatus) (p : Nat) (v : PStatus) : Nat → PStatus :=
  fun n => if n = p then v else st n

/-- Interleaved small-step semantics of the lock protocol.  `readStale`
captures the sentinel content and the liveness probe at the read instant;
`unlinkStale` performs the later delete without re-reading, removing
whatever sentinel is then present (a no-op when it is already gone, which
the source's catch tolerates). -/
inductive Step (alive : Nat → Bool) (timeoutExpired : Bool) : LockState → LockState → Prop
  | start (p : Nat) (s : LockState) :
      alive p = true → s.status p = .idle →
      Step alive timeoutExpired s { s with status := updStatus s.status p .trying }
  | create (p : Nat) (s : LockState) :
      alive p = true → s.status p = .trying → s.lock = none →
      Step alive timeoutExpired s { lock := some p, status := updStatus s.status p .holding }
  | readStale (p q : Nat) (s : LockState) :
      alive p = true → s.status p = .trying → s.lock = some q → alive q = false →
      Step alive timeoutExpired s { s with status := updStatus s.status p .observedDead }
  | unlinkStale (p : Nat) (s : LockState) :
      alive p = true → s.status p = .observedDead →
      Step alive timeoutExpired s { lock := none, status := updStatus s.status p .trying }
  | forceBreak (p : Nat) (s : LockState) :
      alive p = true → s.status p = .trying → timeoutExpired = true →
      Step alive timeoutExpired s { s with lock := none }
  | release (p : Nat) (s : LockState) :
      alive p = true → s.status p = .holding →
      Step alive timeoutExpired s { lock := none, status := updStatus s.status p .idle }

/-- Reachability under the interleaved semantics. -/
def Reach (alive : Nat → Bool) (timeoutExpired : Bool) : LockState → LockState → Prop :=
  Relation.ReflTransGen (Step alive timeoutExpired)

/-- Every live holder owns the sentinel. -/
def HolderOwnsLock (alive : Nat → Bool) (s : LockState) : Prop :=
  ∀ r, alive r = true → s.status r = .holding → s.lock = some r

/-- Any sentinel present records a live owner. -/
def OwnerAlive (alive : Nat → Bool) (s : LockState) : Prop :=
  ∀ d, s.lock = some d → alive d = true

/-- No live process sits between a dead-owner observation and its unlink. -/
def NoPendingUnlink (alive : Nat → Bool) (s : LockState) : Prop :=
  ∀ r, alive r = true → s.status r ≠ .observedDead

/-- The inductive invariant of clean executions: the stale-recovery path
never fires because every sentinel ever written records a live owner. -/
def CleanInv (alive : Nat → Bool) (s : LockState) : Prop :=
  HolderOwnsLock alive s ∧ OwnerAlive alive s ∧ NoPendingUnlink alive s

end FileLock

namespace ChromeBridge

/-!
Model of extension discovery and the wake protocol from
`src/browser/chrome-tab-groups.ts`.  Network effects are parameters: the
feature probe on one service worker either throws (`none`) or reports
whether `groupTabs` is defined (`some b`); `deliveryOk` says whether the
relayed CDP `Runtime.evaluate` round-trips within its 5 s timeout; the
target lists before the wake and after the rescan are given explicitly.
We model a fresh process, i.e. the module-level `cachedSwUrl` fast path
(which short-circuits discovery entirely) is empty. -/

/-- A target from the `/json/list` introspection endpoint. -/
structure CDPTarget where
  id : String
  type : String
  title : String
  url : String
  webSocketDebuggerUrl : String
  deriving Repr, DecidableEq

/-- JS `String.prototype.includes`. -/
def strIncludes (s sub : String) : Bool :=
  decide (sub.data <:+: s.data)

/-- JS `String.prototype.startsWith`. -/
def strStartsWith (s pre : String) : Bool :=
  decide (pre.data <+: s.data)

/-- The candidate filter of the initial scan: extension service workers
with a debugger URL (JS truthiness: the URL string is nonempty). -/
def swCandidates (targets : List CDPTarget) : List CDPTarget :=
  targets.filter (fun t =>
    t.type == "service_worker" && strStartsWith t.url "chrome-extension://"
      && !(t.webSocketDebuggerUrl == ""))

/-- The probe loop: the first candidate whose probe succeeds with `true`;
probe exceptions and `false` results are skipped. -/
def firstAffirmative (probe : CDPTarget → Option Bool) (l : List CDPTarget) :
    Option CDPTarget :=
  l.find? (fun c => probe c == some true)

/-- Outcome of `wakeExtension`: which relay sent the message, whether the
CDP round-trip completed, and the settle delay awaited before returning. -/
structure WakeOutcome where
  sender : Option CDPTarget
  delivered : Bool
  settleDelayMs : Option Nat
  woke : Bool
  deriving Repr, DecidableEq

/-- `wakeExtension(cdpBaseUrl, extensionId, availableSWs)`: picks the first
available service worker whose URL does not contain the dormant extension's
id, relays `chrome.runtime.sendMessage(extensionId, {type:"wake"})` through
it, and on a delivered message sleeps 2500 ms before reporting success. -/
def wakeExtension (extensionId : String) (availableSWs : List CDPTarget)
    (deliveryOk : CDPTarget → Bool) : WakeOutcome :=
  match availableSWs.find? (fun t =>
      !(t.webSocketDebuggerUrl == "") && !(strIncludes t.url extensionId)) with
  | none => { sender := none, delivered := false, settleDelayMs := none, woke := false }
  | some sender =>
      if deliveryOk sender then
        { sender := some sender, delivered := true, settleDelayMs := some 2500, woke := true }
      else
        { sender := some sender, delivered := false, settleDelayMs := none, woke := false }

/-- The service workers handed to `wakeExtension` ("ALL extension SWs, not
just candidates"): every service worker with a debugger URL. -/
def allServiceWorkers (targets : List CDPTarget) : List CDPTarget :=
  targets.filter (fun t => t.type == "service_worker" && !(t.webSocketDebuggerUrl == ""))

/-- The rescan filter used on the refreshed target list after a wake. -/
def rescanCandidates (refreshed : List CDPTarget) : List CDPTarget :=
  refreshed.filter (fun t =>
    t.type == "service_worker" && strStartsWith t.url "chrome-extension://")

/-- `findExtensionServiceWorker(cdpUrl)` for a fresh process: scan and
probe the candidates; if none answers but an extension id is known (cache
or registry), wake it through a relay and, only after the wake reported
success (hence after its settle delay), rescan the refreshed target list.
Returns the discovered debugger URL and the wake outcome, if a wake was
attempted. -/
def findExtensionServiceWorker
    (targets : List CDPTarget)
    (probe : CDPTarget → Option Bool)
    (cachedExtensionId storedExtensionId : Option String)
    (deliveryOk : CDPTarget → Bool)
    (refreshed : List CDPTarget)
    (probe2 : CDPTarget → Option Bool) : Option String × Option WakeOutcome :=
  match firstAffirmative probe (swCandidates targets) with
  | some c => (some c.webSocketDebuggerUrl, none)
  | none =>
    match cachedExtensionId.orElse (fun _ => storedExtensionId) with
    | none => (none, none)
    | some extId =>
      let w := wakeExtension extId (allServiceWorkers targets) deliveryOk
      if w.woke then
        match firstAffirmative probe2 (rescanCandidates refreshed) with
        | some c => (some c.webSocketDebuggerUrl, some w)
        | none => (none, some w)
      else (none, some w)

/-- `isTabGrouperAvailable(cdpUrl)`: the extension is available iff
discovery finds a service-worker URL. -/
def isTabGrouperAvailable
    (targets : List CDPTarget)
    (probe : CDPTarget → Option Bool)
    (cachedExtensionId storedExtensionId : Option String)
    (deliveryOk : CDPTarget → Bool)
    (refreshed : List CDPTarget)
    (probe2 : CDPTarget → Option Bool) : Bool :=
  (findExtensionServiceWorker targets probe cachedExtensionId storedExtensionId
    deliveryOk refreshed probe2).1.isSome

end ChromeBridge

namespace ChromeDaemon

/-!
Model of the daemon supervisor loop from `src/daemon/chrome-daemon.ts`.
`start()` installs `setInterval(() => this.ensureChromeRunning(), 5000)`,
so one health tick is one call to `ensureChromeRunning`.  Observable
actions are recorded as an effect list; log lines are elided.  The
version-info GET (`isChromeReachable`, a fetch of `/json/version`) is an
explicit effect; its results during startup polling come from the `probes`
oracle.  The process handle is `chromeProcess` with its `killed` flag; the
`exit` event handler clears the handle to `null`. -/

/-- The spawned browser process handle. -/
structure ChromeProc where
  pid : Nat
  killed : Bool
  deriving Repr, DecidableEq

/-- Daemon state relevant to the health loop. -/
structure DaemonState where
  chromeProcess : Option ChromeProc
  deriving Repr, DecidableEq

/-- Externally visible actions of one health tick. -/
inductive DaemonEffect
  | spawnChrome
  | probeVersionEndpoint
  deriving Repr, DecidableEq

/-- Interval of the health loop: `setInterval(..., 5000)`. -/
def HEALTH_INTERVAL_MS : Nat := 5000

/-- The startup readiness loop of `startChrome`: up to 30 polls of the
version endpoint, stopping at the first success. -/
def pollEffects (probes : Nat → Bool) : Nat → Nat → List DaemonEffect
  | 0, _ => []
  | fuel + 1, i =>
      .probeVersionEndpoint :: (if probes i then [] else pollEffects probes fuel (i + 1))

/-- `startChrome()`: locate the executable (failure logs an error and
returns without spawning), spawn the browser, then poll readiness. -/
def startChrome (chromePathFound : Bool) (newPid : Nat) (probes : Nat → Bool)
    (s : DaemonState) : List DaemonEffect × DaemonState :=
  if chromePathFound then
    (.spawnChrome :: pollEffects probes 30 0,
     { chromeProcess := some { pid := newPid, killed := false } })
  else
    ([], s)

/-- `ensureChromeRunning()` — the body of every 5 s health tick: return
immediately when the process handle is present and not killed, otherwise
start Chrome. -/
def ensureChromeRunning (chromePathFound : Bool) (newPid : Nat) (probes : Nat → Bool)
    (s : DaemonState) : List DaemonEffect × DaemonState :=
  match s.chromeProcess with
  | some p => if p.killed then startChrome chromePathFound newPid probes s else ([], s)
  | none => startChrome chromePathFound newPid probes s

end ChromeDaemon

namespace TabGroups

/-- C2: `addTab(t, g)` with a groupId `g` absent from the registry's groups
map throws the NotFound error naming `g`, and the registry file is left
byte-identical: the exception propagates out of `withRegistry` before
`writeRegistry` is reached. -/
theorem addTab_unknown_group_errors_without_write (t g : String) (now : Nat) (f : RegFile)
    (h : rget (readRegistry f).groups g = none) :
    addTabToGroup t g now f = (.error ("Tab group not found: " ++ g), f) := by
  simp [addTabToGroup, withRegistry, h]

/-- Witness for C2: on a missing registry file, `addTab("x", "g_missing")`
fails NotFound and the file state is unchanged. -/
theorem addTab_unknown_group_errors_without_write_witness :
    rget (readRegistry RegFile.missing).groups "g_missing" = none
    ∧ addTabToGroup "x" "g_missing" 5 RegFile.missing
        = (.error ("Tab group not found: " ++ "g_missing"), RegFile.missing) :=
  ⟨rfl, addTab_unknown_group_errors_without_write "x" "g_missing" 5 RegFile.missing rfl⟩

/-- C4: for every live set and every prior registry file state,
`pruneStale(live)` keeps exactly the tab entries whose targetId is in the
live set, leaves the groups untouched, and returns the number of entries
removed. -/
theorem pruneStale_removes_exactly_dead (live : List String) (f : RegFile) :
    ∃ reg' : TabGroupRegistry,
      pruneStaleTargets live f
          = (.ok ((readRegistry f).tabs.filter (fun p => !(live.contains p.1))).length,
             .stored reg')
      ∧ reg'.groups = (readRegistry f).groups
      ∧ (∀ p, p ∈ reg'.tabs ↔ p ∈ (readRegistry f).tabs ∧ p.1 ∈ live) := by
  refine ⟨{ readRegistry f with
            tabs := (readRegistry f).tabs.filter (fun p => live.contains p.1) },
          rfl, rfl, ?_⟩
  intro p
  simp [List.mem_filter]

/-- C10: the read-only operations (`listGroups`, `getGroupForTab`,
`getTabsInGroup`, `getTabGroup`, `getExtensionId`) never call
`writeRegistry`; the registry file after each call is identical to the file
before it (only the separate lock sentinel is touched). -/
theorem readonly_ops_preserve_file (f : RegFile) (t g : String) :
    (listTabGroups f).2 = f ∧ (getGroupForTab t f).2 = f ∧ (getTabsInGroup g f).2 = f
    ∧ (getTabGroup g f).2 = f ∧ (getExtensionId f).2 = f :=
  ⟨rfl, rfl, rfl, rfl, rfl⟩

/-- C6 (failing run): `setExtensionId("abcdefgh")` does persist the id into
the registry file, but a subsequent `getExtensionId()` — which goes through
`readRegistry` — returns `none`, because `readRegistry` rebuilds the
registry from `{groups, tabs}` only and discards the stored `extensionId`
field.  The claimed round-trip fails on the very first read. -/
theorem extensionId_not_roundtripped :
    (setExtensionId "abcdefgh" RegFile.missing).2
        = RegFile.stored { groups := [], tabs := [], extensionId := some "abcdefgh" }
    ∧ (getExtensionId (setExtensionId "abcdefgh" RegFile.missing).2).1 = none :=
  ⟨rfl, rfl⟩

end TabGroups

namespace TabGroups

/-- A lookup misses exactly when no entry carries the key. -/
theorem rget_eq_none_iff {α : Type} (m : List (String × α)) (k : String) :
    rget m k = none ↔ ∀ p ∈ m, p.1 ≠ k := by
  simp [rget, List.find?_eq_none]

/-- When some entry carries the key, the in-place update branch of `rset`
finds the updated entry. -/
theorem find?_key_map_update {α : Type} (m : List (String × α)) (k : String) (v : α)
    (h : m.any (fun p => p.1 == k) = true) :
    (m.map (fun p => if p.1 == k then (k, v) else p)).find? (fun p => p.1 == k)
      = some (k, v) := by
  induction m with
  | nil => simp at h
  | cons hd tl ih =>
    by_cases hk : hd.1 == k
    · simp [List.find?, hk]
    · have h' : tl.any (fun p => p.1 == k) = true := by
        simp only [List.any_cons, hk, Bool.false_or] at h
        exact h
      simp only [List.map_cons, List.find?, hk, if_neg]
      · simpa [hk] using ih h'

/-- `rset` always makes the key map to the new value. -/
theorem rget_rset_self {α : Type} (m : List (String × α)) (k : String) (v : α) :
    rget (rset m k v) k = some v := by
  unfold rget rset
  cases h : m.any (fun p => p.1 == k) with
  | true => simp only [if_true, find?_key_map_update m k v h, Option.map_some']
  | false =>
    have hnone : m.find? (fun p => p.1 == k) = none := by
      rw [List.find?_eq_none]
      intro p hp
      simpa using List.any_eq_false.mp h p hp
    simp only [Bool.false_eq_true, if_false]
    rw [List.find?_append, hnone]
    simp [List.find?]

end TabGroups

namespace TabGroups

/-- C3: `deleteGroup(g)` fails NotFound when `g` is absent; when present it
removes the group and exactly the tab entries whose groupId is `g`,
returns those entries' targetIds, and afterwards `listGroups()` does not
include `g` while `getTabsInGroup(g)` is empty.  The well-formedness
hypothesis (each stored group is keyed by its own groupId) is established
by `createTabGroup` and preserved by every mutation. -/
theorem deleteGroup_removes_group_and_tabs (g : String) (f : RegFile)
    (hwf : ∀ p ∈ (readRegistry f).groups, p.2.groupId = p.1) :
    (rget (readRegistry f).groups g = none →
        deleteTabGroup g f = (.error ("Tab group not found: " ++ g), f))
    ∧ (∀ gr, rget (readRegistry f).groups g = some gr →
        deleteTabGroup g f
            = (.ok (((readRegistry f).tabs.filter
                      (fun p => p.2.groupId == g)).map (·.1)),
               .stored { groups := rdel (readRegistry f).groups g
                         tabs := (readRegistry f).tabs.filter
                                   (fun p => !(p.2.groupId == g))
                         extensionId := (readRegistry f).extensionId })
        ∧ (∀ e ∈ (listTabGroups (deleteTabGroup g f).2).1, e.1.groupId ≠ g)
        ∧ (getTabsInGroup g (deleteTabGroup g f).2).1 = []) := by
  constructor
  · intro h
    simp [deleteTabGroup, withRegistry, h]
  · intro gr h
    have heq : deleteTabGroup g f
        = (.ok (((readRegistry f).tabs.filter (fun p => p.2.groupId == g)).map (·.1)),
           .stored { groups := rdel (readRegistry f).groups g
                     tabs := (readRegistry f).tabs.filter (fun p => !(p.2.groupId == g))
                     extensionId := (readRegistry f).extensionId }) := by
      simp [deleteTabGroup, withRegistry, writeRegistry, h]
    refine ⟨heq, ?_, ?_⟩
    · rw [heq]
      intro e he
      simp only [listTabGroups, readRegistry, List.mem_map] at he
      obtain ⟨p, hp, rfl⟩ := he
      have hmem := List.mem_filter.mp hp
      have hne : p.1 ≠ g := by simpa using hmem.2
      have := hwf p hmem.1
      simpa [this] using hne
    · rw [heq]
      simp only [getTabsInGroup, readRegistry]
      rw [List.map_eq_nil_iff, List.filter_eq_nil_iff]
      intro p hp
      have := (List.mem_filter.mp hp).2
      simp at this ⊢
      exact this

/-- Witness for C3: deleting `g1` from a registry holding groups `g1`, `g2`
and tabs `t1 ∈ g1`, `t2 ∈ g2` returns `["t1"]`, drops `g1` from
`listGroups()` and empties `getTabsInGroup("g1")`. -/
theorem deleteGroup_removes_group_and_tabs_witness :
    (getTabsInGroup "g1" (deleteTabGroup "g1" (RegFile.stored
        { groups := [("g1", { groupId := "g1", name := "alice", color := some "blue",
                              createdAt := 0, chromeGroupId := none }),
                     ("g2", { groupId := "g2", name := "bob", color := some "green",
                              createdAt := 0, chromeGroupId := none })]
          tabs := [("t1", { groupId := "g1", addedAt := 1 }),
                   ("t2", { groupId := "g2", addedAt := 2 })]
          extensionId := none })).2).1 = [] :=
  ((deleteGroup_removes_group_and_tabs "g1" _ (by decide)).2
    { groupId := "g1", name := "alice", color := some "blue",
      createdAt := 0, chromeGroupId := none } (by decide)).2.2

end TabGroups

namespace TabGroups

/-- C5: `createGroup(name, color?)` builds its id as `"g_"` plus the
high-entropy random token; whenever that token is fresh (the probabilistic
guarantee of `randomBytes(8)`) the id differs from every existing group's
id.  The name is stored trimmed with `"unnamed"` substituted for an empty
trim, an invalid color is silently dropped while a valid one is kept, the
creation timestamp is recorded, and the value persisted under the new id
is exactly the value returned. -/
theorem createGroup_fresh_id_and_fields (randHex name : String) (color : Option String)
    (now : Nat) (f : RegFile)
    (hfresh : rget (readRegistry f).groups (generateGroupId randHex) = none) :
    ∃ (g : TabGroup) (f' : RegFile),
      createTabGroup randHex now name color f = (g, f')
      ∧ g.groupId = generateGroupId randHex
      ∧ (∀ p ∈ (readRegistry f).groups, p.1 ≠ g.groupId)
      ∧ g.name = (if name.trim = "" then "unnamed" else name.trim)
      ∧ (∀ c, color = some c → isValidColor c = false → g.color = none)
      ∧ (∀ c, color = some c → isValidColor c = true → g.color = some c)
      ∧ g.createdAt = now
      ∧ rget (readRegistry f').groups g.groupId = some g := by
  refine ⟨(createTabGroup randHex now name color f).1,
          (createTabGroup randHex now name color f).2, rfl, rfl, ?_, rfl, ?_, ?_, rfl, ?_⟩
  · intro p hp
    exact (rget_eq_none_iff (readRegistry f).groups (generateGroupId randHex)).mp hfresh p hp
  · intro c hc hv
    simp [createTabGroup, hc, hv]
  · intro c hc hv
    simp [createTabGroup, hc, hv]
  · simp only [createTabGroup, withRegistry, writeRegistry, readRegistry]
    exact rget_rset_self _ _ _

/-- Witness for C5: creating `"  alice  "`/`"magenta"` (an invalid color)
over a registry already holding `g_aaaa` yields a trimmed name, a dropped
color, and a persisted-equals-returned group under the fresh id. -/
theorem createGroup_fresh_id_and_fields_witness :
    ∃ (g : TabGroup) (f' : RegFile),
      createTabGroup "0123456789abcdef" 42 "  alice  " (some "magenta")
          (RegFile.stored
            { groups := [("g_aaaa", { groupId := "g_aaaa", name := "old", color := none,
                                      createdAt := 0, chromeGroupId := none })]
              tabs := []
              extensionId := none }) = (g, f')
      ∧ g.groupId = generateGroupId "0123456789abcdef"
      ∧ (∀ p ∈ (readRegistry (RegFile.stored
            { groups := [("g_aaaa", { groupId := "g_aaaa", name := "old", color := none,
                                      createdAt := 0, chromeGroupId := none })]
              tabs := []
              extensionId := none })).groups, p.1 ≠ g.groupId)
      ∧ g.name = (if ("  alice  " : String).trim = "" then "unnamed"
                  else ("  alice  " : String).trim)
      ∧ (∀ c, (some "magenta" : Option String) = some c → isValidColor c = false →
          g.color = none)
      ∧ (∀ c, (some "magenta" : Option String) = some c → isValidColor c = true →
          g.color = some c)
      ∧ g.createdAt = 42
      ∧ rget (readRegistry f').groups g.groupId = some g :=
  createGroup_fresh_id_and_fields "0123456789abcdef" "  alice  " (some "magenta") 42 _
    (by decide)

end TabGroups

namespace TabGroups

/-- C9 fails as stated: `setChromeGroupId` assigns unconditionally, so a
second call with a different value replaces the first.  Starting from a
registry holding group `g1` with no chromeGroupId, `setChromeGroupId("g1", 1)`
stores `1`, and a subsequent `setChromeGroupId("g1", 2)` changes it to `2`. -/
theorem chromeGroupId_not_immutable :
    (rget (readRegistry (setChromeGroupId "g1" 1 (RegFile.stored
        { groups := [("g1", { groupId := "g1", name := "n", color := none,
                              createdAt := 0, chromeGroupId := none })]
          tabs := [], extensionId := none })).2).groups "g1").map
        TabGroup.chromeGroupId = some (some 1)
    ∧ (rget (readRegistry (setChromeGroupId "g1" 2 (setChromeGroupId "g1" 1 (RegFile.stored
        { groups := [("g1", { groupId := "g1", name := "n", color := none,
                              createdAt := 0, chromeGroupId := none })]
          tabs := [], extensionId := none })).2).2).groups "g1").map
        TabGroup.chromeGroupId = some (some 2) := by
  constructor <;> rfl

/-- C9 amended: at the registry level `chromeGroupId` is last-write-wins,
not write-once — `setChromeGroupId(g, c)` sets group `g`'s chromeGroupId to
`c` whenever `g` exists, overwriting any previously stored value.  The
write-once discipline exists only at the call site (`browser_tabs` "new"),
which calls `setChromeGroupId` solely when the group's chromeGroupId is
still unset. -/
theorem setChromeGroupId_last_write_wins (g : String) (c : Int) (f : RegFile)
    (gr : TabGroup) (h : rget (readRegistry f).groups g = some gr) :
    rget (readRegistry (setChromeGroupId g c f).2).groups g
      = some { gr with chromeGroupId := some c } := by
  simp only [setChromeGroupId, withRegistry, writeRegistry, h]
  exact rget_rset_self _ _ _

/-- Witness for C9 (amended): overwriting `1` with `2` on group `g1`. -/
theorem setChromeGroupId_last_write_wins_witness :
    rget (readRegistry (setChromeGroupId "g1" 2 (RegFile.stored
        { groups := [("g1", { groupId := "g1", name := "n", color := none,
                              createdAt := 0, chromeGroupId := some 1 })]
          tabs := [], extensionId := none })).2).groups "g1"
      = some { groupId := "g1", name := "n", color := none,
               createdAt := 0, chromeGroupId := some 2 } :=
  setChromeGroupId_last_write_wins "g1" 2 _
    { groupId := "g1", name := "n", color := none, createdAt := 0, chromeGroupId := some 1 }
    (by decide)

end TabGroups

namespace ChromeDaemon

/-- C8 fails as stated: on a tick where the spawned process handle is still
live but the debug endpoint is unreachable (the probe oracle answers false
throughout), `ensureChromeRunning` — the entire body of the 5 s health
tick — performs no version-endpoint GET and no respawn: the tick checks
only the process handle's `killed` flag. -/
theorem healthTick_skips_endpoint_probe :
    DaemonEffect.probeVersionEndpoint
        ∉ (ensureChromeRunning true 7 (fun _ => false)
            { chromeProcess := some { pid := 1, killed := false } }).1
    ∧ DaemonEffect.spawnChrome
        ∉ (ensureChromeRunning true 7 (fun _ => false)
            { chromeProcess := some { pid := 1, killed := false } }).1 := by
  constructor <;> simp [ensureChromeRunning]

/-- C8 amended: the health loop runs `ensureChromeRunning` every 5000 ms;
a tick respawns Chrome exactly when the spawned process handle is absent
or marked killed (and the executable can be found) — crash detection is
event-driven through the `exit` handler clearing the handle, not through
an endpoint probe; on a tick with a live handle the tick does nothing, so
the version-info GET happens only inside `startChrome`'s readiness wait. -/
theorem healthTick_respawns_on_dead_handle (chromePathFound : Bool) (newPid : Nat)
    (probes : Nat → Bool) (s : DaemonState) :
    HEALTH_INTERVAL_MS = 5000
    ∧ (DaemonEffect.spawnChrome ∈ (ensureChromeRunning chromePathFound newPid probes s).1
        ↔ chromePathFound = true
          ∧ (s.chromeProcess = none ∨ ∃ p, s.chromeProcess = some p ∧ p.killed = true))
    ∧ ((∃ p, s.chromeProcess = some p ∧ p.killed = false) →
        (ensureChromeRunning chromePathFound newPid probes s).1 = []) := by
  refine ⟨rfl, ?_, ?_⟩
  · obtain ⟨cp⟩ := s
    cases cp with
    | none => cases chromePathFound <;> simp [ensureChromeRunning, startChrome]
    | some p =>
      cases hk : p.killed <;> cases chromePathFound <;>
        simp [ensureChromeRunning, startChrome, hk]
  · rintro ⟨p, hp, hk⟩
    obtain ⟨cp⟩ := s
    cases hp
    simp [ensureChromeRunning, hk]

/-- Witness for C8 (amended): a tick over a live process handle has no
effects. -/
theorem healthTick_respawns_on_dead_handle_witness :
    (ensureChromeRunning true 7 (fun _ => true)
        { chromeProcess := some { pid := 1, killed := false } }).1 = [] :=
  (healthTick_respawns_on_dead_handle true 7 (fun _ => true)
      { chromeProcess := some { pid := 1, killed := false } }).2.2
    ⟨{ pid := 1, killed := false }, rfl, rfl⟩

end ChromeDaemon

namespace ChromeBridge

/-- C7: during discovery, when no candidate probes affirmative but an
extension id is known (cached or persisted): the wake attempt is relayed
only through a service-worker target whose URL does not contain the
dormant id; if no such relay exists among the available service workers
the wake reports failure and discovery returns no URL (so `isAvailable`
is false); and a delivered wake message is followed by the fixed 2500 ms
settle delay (recorded in the outcome that precedes the rescan). -/
theorem wake_uses_other_extension_relay
    (targets refreshed : List CDPTarget)
    (probe probe2 : CDPTarget → Option Bool)
    (cachedId storedId : Option String) (extId : String)
    (deliveryOk : CDPTarget → Bool)
    (hnoresp : firstAffirmative probe (swCandidates targets) = none)
    (hid : cachedId.orElse (fun _ => storedId) = some extId) :
    (findExtensionServiceWorker targets probe cachedId storedId deliveryOk refreshed probe2).2
        = some (wakeExtension extId (allServiceWorkers targets) deliveryOk)
    ∧ (∀ sndr,
        (wakeExtension extId (allServiceWorkers targets) deliveryOk).sender = some sndr →
        sndr ∈ allServiceWorkers targets ∧ sndr.type = "service_worker"
          ∧ strIncludes sndr.url extId = false)
    ∧ ((∀ t ∈ allServiceWorkers targets,
          t.webSocketDebuggerUrl = "" ∨ strIncludes t.url extId = true) →
        (wakeExtension extId (allServiceWorkers targets) deliveryOk).woke = false
        ∧ isTabGrouperAvailable targets probe cachedId storedId deliveryOk refreshed probe2
            = false)
    ∧ ((wakeExtension extId (allServiceWorkers targets) deliveryOk).delivered = true →
        (wakeExtension extId (allServiceWorkers targets) deliveryOk).settleDelayMs
          = some 2500) := by
  refine ⟨?_, ?_, ?_, ?_⟩
  · simp only [findExtensionServiceWorker, hnoresp, hid]
    cases hw : (wakeExtension extId (allServiceWorkers targets) deliveryOk).woke with
    | true =>
      cases hfa : firstAffirmative probe2 (rescanCandidates refreshed) with
      | none => simp [hw, hfa]
      | some c => simp [hw, hfa]
    | false => simp [hw]
  · intro sndr h
    unfold wakeExtension at h
    cases hf : (allServiceWorkers targets).find? (fun t =>
        !(t.webSocketDebuggerUrl == "") && !(strIncludes t.url extId)) with
    | none => rw [hf] at h; simp at h
    | some s0 =>
      rw [hf] at h
      have hs : sndr = s0 := by
        by_cases hd : deliveryOk s0 <;> simp [hd] at h <;> exact h.symm
      subst hs
      have hmem := List.mem_of_find?_eq_some hf
      have hpred := List.find?_some hf
      have hsw := List.mem_filter.mp hmem
      refine ⟨hmem, ?_, ?_⟩
      · have := hsw.2
        simp only [Bool.and_eq_true, beq_iff_eq] at this
        exact this.1
      · simp only [Bool.and_eq_true, Bool.not_eq_true'] at hpred
        exact hpred.2
  · intro hall
    have hf : (allServiceWorkers targets).find? (fun t =>
        !(t.webSocketDebuggerUrl == "") && !(strIncludes t.url extId)) = none := by
      rw [List.find?_eq_none]
      intro t ht
      rcases hall t ht with h1 | h1 <;> simp [h1]
    constructor
    · simp [wakeExtension, hf]
    · simp [isTabGrouperAvailable, findExtensionServiceWorker, hnoresp, hid,
        wakeExtension, hf]
  · intro hd
    cases hf : (allServiceWorkers targets).find? (fun t =>
        !(t.webSocketDebuggerUrl == "") && !(strIncludes t.url extId)) with
    | none => simp [wakeExtension, hf] at hd
    | some s0 =>
      by_cases hdo : deliveryOk s0
      · simp [wakeExtension, hf, hdo]
      · simp [wakeExtension, hf, hdo] at hd

end ChromeBridge

namespace ChromeBridge

/-- Witness for C7: one responsive foreign service worker (URL not
containing the dormant id `abcdefgh`) acts as relay; the probe finds no
affirmative candidate, the id is cached, delivery succeeds, and the
settle delay of 2500 ms is recorded. -/
theorem wake_uses_other_extension_relay_witness :
    firstAffirmative (fun _ => some false) (swCandidates
        [{ id := "T1", type := "service_worker", title := "",
           url := "chrome-extension://other/sw.js",
           webSocketDebuggerUrl := "ws://relay" }]) = none
    ∧ (some "abcdefgh" : Option String).orElse (fun _ => (none : Option String))
        = some "abcdefgh"
    ∧ (findExtensionServiceWorker
        [{ id := "T1", type := "service_worker", title := "",
           url := "chrome-extension://other/sw.js",
           webSocketDebuggerUrl := "ws://relay" }]
        (fun _ => some false) (some "abcdefgh") none (fun _ => true)
        [{ id := "T2", type := "service_worker", title := "",
           url := "chrome-extension://abcdefgh/sw.js",
           webSocketDebuggerUrl := "ws://dormant" }]
        (fun _ => some true)).2
        = some (wakeExtension "abcdefgh" (allServiceWorkers
            [{ id := "T1", type := "service_worker", title := "",
               url := "chrome-extension://other/sw.js",
               webSocketDebuggerUrl := "ws://relay" }]) (fun _ => true))
    ∧ (wakeExtension "abcdefgh" (allServiceWorkers
        [{ id := "T1", type := "service_worker", title := "",
           url := "chrome-extension://other/sw.js",
           webSocketDebuggerUrl := "ws://relay" }]) (fun _ => true)).settleDelayMs
        = some 2500 :=
  ⟨by decide, rfl,
   (wake_uses_other_extension_relay
      [{ id := "T1", type := "service_worker", title := "",
         url := "chrome-extension://other/sw.js",
         webSocketDebuggerUrl := "ws://relay" }]
      [{ id := "T2", type := "service_worker", title := "",
         url := "chrome-extension://abcdefgh/sw.js",
         webSocketDebuggerUrl := "ws://dormant" }]
      (fun _ => some false) (fun _ => some true) (some "abcdefgh") none "abcdefgh"
      (fun _ => true) (by decide) rfl).1,
   (wake_uses_other_extension_relay
      [{ id := "T1", type := "service_worker", title := "",
         url := "chrome-extension://other/sw.js",
         webSocketDebuggerUrl := "ws://relay" }]
      [{ id := "T2", type := "service_worker", title := "",
         url := "chrome-extension://abcdefgh/sw.js",
         webSocketDebuggerUrl := "ws://dormant" }]
      (fun _ => some false) (fun _ => some true) (some "abcdefgh") none "abcdefgh"
      (fun _ => true) (by decide) rfl).2.2.2 (by decide)⟩

end ChromeBridge

namespace FileLock

/-- One step within the bounded wait preserves the clean-execution
invariant: `readStale` needs a dead-owner sentinel (excluded by
`OwnerAlive`), `unlinkStale` needs a pending observation (excluded by
`NoPendingUnlink`), creation is atomic create-if-absent, and release only
clears the releaser's own sentinel. -/
theorem cleanInv_step (alive : Nat → Bool) (s s' : LockState)
    (hstep : Step alive false s s') (hinv : CleanInv alive s) :
    CleanInv alive s' := by
  obtain ⟨hhold, howner, hnopend⟩ := hinv
  cases hstep with
  | start p _ ha hst =>
    refine ⟨?_, howner, ?_⟩
    · intro r hr hh
      by_cases hrp : r = p
      · subst hrp; simp [updStatus] at hh
      · exact hhold r hr (by simpa [updStatus, hrp] using hh)
    · intro r hr
      by_cases hrp : r = p
      · subst hrp; simp [updStatus]
      · simpa [updStatus, hrp] using hnopend r hr
  | create p _ ha hst hl =>
    refine ⟨?_, ?_, ?_⟩
    · intro r hr hh
      by_cases hrp : r = p
      · subst hrp; rfl
      · have hold : s.status r = .holding := by simpa [updStatus, hrp] using hh
        have := hhold r hr hold
        rw [hl] at this
        exact absurd this (by simp)
    · intro d hd
      injection hd with hd'
      rw [← hd']
      exact ha
    · intro r hr
      by_cases hrp : r = p
      · subst hrp; simp [updStatus]
      · simpa [updStatus, hrp] using hnopend r hr
  | readStale p q _ ha hst hl hdead =>
    have := howner q hl
    rw [hdead] at this
    exact absurd this (by simp)
  | unlinkStale p _ ha hobs =>
    exact absurd hobs (hnopend p ha)
  | forceBreak p _ ha hst htimeout =>
    exact absurd htimeout (by simp)
  | release p _ ha hst =>
    refine ⟨?_, ?_, ?_⟩
    · intro r hr hh
      by_cases hrp : r = p
      · subst hrp; simp [updStatus] at hh
      · have hold : s.status r = .holding := by simpa [updStatus, hrp] using hh
        have h1 := hhold r hr hold
        have h2 := hhold p ha hst
        rw [h1] at h2
        injection h2 with h3
        exact absurd h3 hrp
    · intro d hd
      simp at hd
    · intro r hr
      by_cases hrp : r = p
      · subst hrp; simp [updStatus]
      · simpa [updStatus, hrp] using hnopend r hr

/-- The clean-execution invariant holds in every state reachable within
the bounded wait from a state satisfying it. -/
theorem cleanInv_reach (alive : Nat → Bool) (init s : LockState)
    (hreach : Reach alive false init s) (hinit : CleanInv alive init) :
    CleanInv alive s := by
  induction hreach with
  | refl => exact hinit
  | tail _ hstep ih => exact cleanInv_step alive _ _ hstep ih

end FileLock

namespace FileLock

/-- C1 fails as stated, because the stale-recovery path of `acquireLock`
is not atomic: the dead-owner read/probe and the `unlinkSync` are separate
syscalls with no re-validation in between.  Concrete run, entirely within
the bounded wait (`timeoutExpired = false`): the sentinel records the dead
pid 5; live processes 0 and 1 both read it and both observe the owner
dead; process 1 unlinks and acquires; process 0 then performs its pending
unlink — deleting process 1's fresh sentinel — and acquires too.  The
final state has both processes observing the lock as acquired
simultaneously. -/
theorem lock_both_acquired_within_bounded_wait :
    Reach (fun n => decide (n < 2)) false
        { lock := some 5, status := fun _ => PStatus.idle }
        { lock := some 0, status :=
            updStatus (updStatus (updStatus (updStatus (updStatus (updStatus
              (updStatus (updStatus (fun _ => PStatus.idle)
                0 .trying) 1 .trying) 0 .observedDead) 1 .observedDead)
                1 .trying) 1 .holding) 0 .trying) 0 .holding }
    ∧ ({ lock := some 0, status :=
            updStatus (updStatus (updStatus (updStatus (updStatus (updStatus
              (updStatus (updStatus (fun _ => PStatus.idle)
                0 .trying) 1 .trying) 0 .observedDead) 1 .observedDead)
                1 .trying) 1 .holding) 0 .trying) 0 .holding }
          : LockState).status 0 = PStatus.holding
    ∧ ({ lock := some 0, status :=
            updStatus (updStatus (updStatus (updStatus (updStatus (updStatus
              (updStatus (updStatus (fun _ => PStatus.idle)
                0 .trying) 1 .trying) 0 .observedDead) 1 .observedDead)
                1 .trying) 1 .holding) 0 .trying) 0 .holding }
          : LockState).status 1 = PStatus.holding
    ∧ (fun n => decide (n < 2)) 0 = true
    ∧ (fun n => decide (n < 2)) 1 = true
    ∧ (fun n => decide (n < 2)) 5 = false
    ∧ (0 : Nat) ≠ 1 := by
  refine ⟨?_, rfl, rfl, rfl, rfl, rfl, by decide⟩
  have h1 : Reach (fun n => decide (n < 2)) false
      { lock := some 5, status := fun _ => PStatus.idle }
      { lock := some 5, status := (updStatus (fun _ => PStatus.idle) 0 .trying) } :=
    Relation.ReflTransGen.single (Step.start 0 _ rfl rfl)
  have h2 : Reach (fun n => decide (n < 2)) false
      { lock := some 5, status := fun _ => PStatus.idle }
      { lock := some 5, status :=
          (updStatus (updStatus (fun _ => PStatus.idle) 0 .trying) 1 .trying) } :=
    h1.tail (Step.start 1 _ rfl rfl)
  have h3 : Reach (fun n => decide (n < 2)) false
      { lock := some 5, status := fun _ => PStatus.idle }
      { lock := some 5, status :=
          (updStatus (updStatus (updStatus (fun _ => PStatus.idle) 0 .trying)
            1 .trying) 0 .observedDead) } :=
    h2.tail (Step.readStale 0 5 _ rfl rfl rfl rfl)
  have h4 : Reach (fun n => decide (n < 2)) false
      { lock := some 5, status := fun _ => PStatus.idle }
      { lock := some 5, status :=
          (updStatus (updStatus (updStatus (updStatus (fun _ => PStatus.idle)
            0 .trying) 1 .trying) 0 .observedDead) 1 .observedDead) } :=
    h3.tail (Step.readStale 1 5 _ rfl rfl rfl rfl)
  have h5 : Reach (fun n => decide (n < 2)) false
      { lock := some 5, status := fun _ => PStatus.idle }
      { lock := none, status :=
          (updStatus (updStatus (updStatus (updStatus (updStatus
            (fun _ => PStatus.idle) 0 .trying) 1 .trying) 0 .observedDead)
            1 .observedDead) 1 .trying) } :=
    h4.tail (Step.unlinkStale 1 _ rfl rfl)
  have h6 : Reach (fun n => decide (n < 2)) false
      { lock := some 5, status := fun _ => PStatus.idle }
      { lock := some 1, status :=
          (updStatus (updStatus (updStatus (updStatus (updStatus (updStatus
            (fun _ => PStatus.idle) 0 .trying) 1 .trying) 0 .observedDead)
            1 .observedDead) 1 .trying) 1 .holding) } :=
    h5.tail (Step.create 1 _ rfl rfl rfl)
  have h7 : Reach (fun n => decide (n < 2)) false
      { lock := some 5, status := fun _ => PStatus.idle }
      { lock := none, status :=
          (updStatus (updStatus (updStatus (updStatus (updStatus (updStatus
            (updStatus (fun _ => PStatus.idle) 0 .trying) 1 .trying)
            0 .observedDead) 1 .observedDead) 1 .trying) 1 .holding) 0 .trying) } :=
    h6.tail (Step.unlinkStale 0 _ rfl rfl)
  exact h7.tail (Step.create 0 _ rfl rfl rfl)

/-- C1 amended: the create step is an atomic create-if-absent, so in clean
executions — initial state with no live holder, no pending unlink, and a
sentinel that is absent or records a live owner, whence the non-atomic
stale-recovery path never fires — no state reachable within the bounded
wait (`timeoutExpired = false`; the force-break fires only after
`maxWaitMs` = 3000 ms) has two live processes holding the lock.
Separately, from any state where `p` waits on a sentinel recording a dead
owner, `p` acquires within the bounded wait in three steps: observe the
dead owner, unlink the stale sentinel, create its own.  When several
waiters observe the same dead sentinel, the pending unlinks can race and
double-acquire — the counterexample above. -/
theorem lock_clean_exclusion_and_stale_recovery
    (alive : Nat → Bool) (p q : Nat) (init : LockState)
    (hp : alive p = true) (hq : alive q = true) (hpq : p ≠ q)
    (hnoHold : ∀ r, alive r = true → init.status r ≠ .holding)
    (hnoObs : ∀ r, alive r = true → init.status r ≠ .observedDead)
    (howner : ∀ d, init.lock = some d → alive d = true) :
    (∀ s, Reach alive false init s →
        ¬(s.status p = .holding ∧ s.status q = .holding))
    ∧ (∀ s d, s.status p = .trying → s.lock = some d → alive d = false →
        ∃ s', Reach alive false s s'
          ∧ s'.status p = .holding ∧ s'.lock = some p) := by
  have hinv0 : CleanInv alive init :=
    ⟨fun r hr hh => absurd hh (hnoHold r hr), howner, fun r hr => hnoObs r hr⟩
  constructor
  · rintro s hreach ⟨hhp, hhq⟩
    have hinv := cleanInv_reach alive init s hreach hinv0
    have h1 := hinv.1 p hp hhp
    have h2 := hinv.1 q hq hhq
    rw [h1] at h2
    injection h2 with h3
    exact hpq h3
  · intro s d htry hlock hdead
    refine ⟨{ lock := some p,
              status := (updStatus (updStatus (updStatus s.status p .observedDead)
                p .trying) p .holding) },
      ?_, by simp [updStatus], rfl⟩
    exact Relation.ReflTransGen.tail (Relation.ReflTransGen.tail
      (Relation.ReflTransGen.single (Step.readStale p d s hp htry hlock hdead))
      (Step.unlinkStale p _ hp (by simp [updStatus])))
      (Step.create p _ hp (by simp [updStatus]) rfl)

/-- Witness for C1 (amended): from a clean start (no sentinel, processes 0
and 1 idle and alive) exclusion holds at the initial state; and process 0,
waiting on the dead pid 5's sentinel, recovers and acquires. -/
theorem lock_clean_exclusion_and_stale_recovery_witness :
    ¬(({ lock := none, status := fun _ => PStatus.idle } : LockState).status 0
          = PStatus.holding
      ∧ ({ lock := none, status := fun _ => PStatus.idle } : LockState).status 1
          = PStatus.holding)
    ∧ ∃ s', Reach (fun n => decide (n < 2)) false
          { lock := some 5, status := updStatus (fun _ => PStatus.idle) 0 .trying } s'
        ∧ s'.status 0 = PStatus.holding ∧ s'.lock = some 0 :=
  ⟨(lock_clean_exclusion_and_stale_recovery (fun n => decide (n < 2)) 0 1
      { lock := none, status := fun _ => PStatus.idle } rfl rfl (by decide)
      (fun _ _ h => nomatch h) (fun _ _ h => nomatch h) (fun _ h => nomatch h)).1
      { lock := none, status := fun _ => PStatus.idle } Relation.ReflTransGen.refl,
   (lock_clean_exclusion_and_stale_recovery (fun n => decide (n < 2)) 0 1
      { lock := none, status := fun _ => PStatus.idle } rfl rfl (by decide)
      (fun _ _ h => nomatch h) (fun _ _ h => nomatch h) (fun _ h => nomatch h)).2
      { lock := some 5, status := updStatus (fun _ => PStatus.idle) 0 .trying } 5
      rfl rfl rfl⟩

end FileLock
